import Mathlib

/-!
Shallow embedding of the GaitVision statistical-aggregation and
variable-importance pipeline.

The embedding covers, faithfully to the Python sources:
* `flask-server/normaliser.py` — label standardization and grouped statistics
  (`standardize_condition`, `standardize_timepoint`, `normalise_data`);
* `flask-server/pca_logic.py` and `PCA Small Web App/pca_pipeline_module.py` —
  numeric preprocessing (`create_numeric_df`), outlier filtering
  (`_remove_outliers_iforest`), the PCA fitting control flow (`fit_pca`),
  rotation (`rotate_pca`) and the weighted variable-importance scorer
  (`calculate_weighted_variable_importance`).

Modelling conventions:
* pandas/numpy floats are modelled as exact rationals (`ℚ`); a NaN cell is
  `Option.none`.  Float downcasting (a lossy memory optimisation in the
  source) is the identity here; no property below depends on rounding.
* Python exceptions are values of `PyErr`; a raising function returns
  `Except PyErr α`; a `try/except` block is explicit `match` on that result.
* The two numerical black boxes (the IsolationForest anomaly mask and the
  factor rotation solver) are taken as function parameters, mirroring the
  design note that they are black-box numerical primitives.
-/

namespace GaitVision

/-! ## String utilities

Self-contained list-of-character implementations of the Python string
operations used by the pipeline (`.strip()`, `.lower()`, `in`,
`.startswith`, `.endswith`, `re.search(r'(\d+)')`). -/

/-- Characters of a string after Python `.strip()` (drop surrounding whitespace). -/
def trimChars (cs : List Char) : List Char :=
  ((cs.dropWhile Char.isWhitespace).reverse.dropWhile Char.isWhitespace).reverse

/-- Python `s.strip()`. -/
def strTrim (s : String) : String := ⟨trimChars s.data⟩

/-- Python `s.lower()` (ASCII case folding suffices for every label in scope). -/
def strLower (s : String) : String := ⟨s.data.map Char.toLower⟩

/-- Python `s.upper()`. -/
def strUpper (s : String) : String := ⟨s.data.map Char.toUpper⟩

/-- Does `pat` occur at the head of `cs`? -/
def chStarts : List Char → List Char → Bool
  | [], _ => true
  | _ :: _, [] => false
  | p :: ps, c :: cs => p == c && chStarts ps cs

/-- Does `pat` occur anywhere inside `cs`?  (Python `pat in s`.) -/
def chSub (pat : List Char) : List Char → Bool
  | [] => chStarts pat []
  | c :: cs => chStarts pat (c :: cs) || chSub pat cs

/-- Python `pat in s` on strings. -/
def strHasSub (s pat : String) : Bool := chSub pat.data s.data

/-- Python `s.startswith(pat)`. -/
def strStarts (s pat : String) : Bool := chStarts pat.data s.data

/-- Python `s.endswith(pat)`. -/
def strEnds (s pat : String) : Bool := chStarts pat.data.reverse s.data.reverse

/-- The first maximal run of decimal digits in a character list, if any
(Python `re.search(r'(\d+)', s)`). -/
def firstDigits : List Char → Option (List Char)
  | [] => none
  | c :: cs => if c.isDigit then some (c :: cs.takeWhile Char.isDigit) else firstDigits cs

/-- Digits to the natural number they denote. -/
def digitsToNat (ds : List Char) : Nat := ds.foldl (fun n c => n * 10 + (c.toNat - 48)) 0

/-! ## Cells and numeric coercion -/

/-- One cell of a raw table: a numeric value, a free-text string, or a
missing value (pandas `NaN`). -/
inductive Cell where
  | num (q : ℚ)
  | str (s : String)
  | na
deriving DecidableEq, Repr

/-- Python `str(cell)` for a non-missing cell.  The exact rendering of a
numeric cell is immaterial to every property proved below (a decimal string
matches none of the label keywords either way). -/
def cellStr : Cell → String
  | .num q => toString q
  | .str s => s
  | .na => ""

/-- Model of `pd.to_numeric(..., errors="coerce")` on one string: optional sign,
integer digits, optional fractional digits; anything else coerces to `NaN`.
(The pandas parser also accepts exponents etc.; no claim below depends on
which non-trivial strings parse.) -/
def strToRat? (s : String) : Option ℚ :=
  let cs := trimChars s.data
  let signed : Bool × List Char :=
    match cs with
    | '-' :: r => (true, r)
    | '+' :: r => (false, r)
    | r => (false, r)
  let neg := signed.1
  let rest := signed.2
  let intPart := rest.takeWhile Char.isDigit
  let mag? : Option ℚ :=
    match rest.drop intPart.length with
    | [] => if intPart.isEmpty then none else some (digitsToNat intPart)
    | '.' :: frac =>
        if frac.all Char.isDigit && !(intPart.isEmpty && frac.isEmpty) then
          some ((digitsToNat intPart : ℚ) + (digitsToNat frac : ℚ) / 10 ^ frac.length)
        else none
    | _ => none
  mag?.map (fun m => if neg then -m else m)

/-- Model of `pd.to_numeric(..., errors="coerce")` on one cell: non-coercible cells
become missing. -/
def toNumeric : Cell → Option ℚ
  | .num q => some q
  | .str s => strToRat? s
  | .na => none

/-! ## Python errors -/

/-- The exception kinds relevant to the pipeline.  `DataProcessingError`
and `PCACalculationError` are the two custom classes of
`pca_pipeline_module.py`; `ValueError` is Python's builtin (raised by
`normaliser.py` and by the numeric libraries); `otherError` stands for any
remaining exception class. -/
inductive PyErr where
  | valueError (msg : String)
  | dataProcessingError (msg : String)
  | pcaCalculationError (msg : String)
  | otherError (msg : String)
deriving DecidableEq, Repr

/-- The `str(e)` message of an exception. -/
def PyErr.message : PyErr → String
  | .valueError m => m
  | .dataProcessingError m => m
  | .pcaCalculationError m => m
  | .otherError m => m

/-- Is the outcome a raised `DataProcessingError`? -/
def isDataProcessingError {α : Type} : Except PyErr α → Bool
  | .error (.dataProcessingError _) => true
  | _ => false

/-- Is the outcome a raised `PCACalculationError`? -/
def isPCACalculationError {α : Type} : Except PyErr α → Bool
  | .error (.pcaCalculationError _) => true
  | _ => false

/-- The successful value of an outcome, if any. -/
def okValue? {α : Type} : Except PyErr α → Option α
  | .ok a => some a
  | .error _ => none

/-! ## Label standardizer (`normaliser.py`, `standardize_condition` /
`standardize_timepoint`) -/

/-- Model of `standardize_condition` of `normaliser.py`: missing propagates; the
trimmed value maps to `ST`/`HT`/`DT` on a case-insensitive substring or
exact-abbreviation match, and is otherwise returned trimmed. -/
def standardize_condition (c : Cell) : Cell :=
  match c with
  | .na => .na
  | c =>
    let s := strTrim (cellStr c)
    if strHasSub (strLower s) "single task" || strUpper s == "ST" then .str "ST"
    else if strHasSub (strLower s) "head turn" || strUpper s == "HT" then .str "HT"
    else if strHasSub (strLower s) "dual task" || strUpper s == "DT" then .str "DT"
    else .str s

/-- Model of `standardize_timepoint` of `normaliser.py`: missing propagates; if the
trimmed value's lowercase form contains `"post injury"` or the substring
`"pi"`, the first run of digits (if any) is extracted into `PI-<digits>`;
otherwise the trimmed value is returned. -/
def standardize_timepoint (c : Cell) : Cell :=
  match c with
  | .na => .na
  | c =>
    let s := strTrim (cellStr c)
    if strHasSub (strLower s) "post injury" || strHasSub (strLower s) "pi" then
      match firstDigits s.data with
      | some ds => .str ("PI-" ++ ⟨ds⟩)
      | none => .str s
    else .str s

/-! ## Raw tables and the grouped-statistics engine (`normaliser.py`,
`normalise_data`) -/

/-- A raw table as parsed from an uploaded CSV: named columns and rows of
cells addressed positionally.  (pandas DataFrames are rectangular; a
missing position reads as `NaN`, which `getD … .na` reproduces.) -/
structure Table where
  cols : List String
  rows : List (List Cell)
deriving DecidableEq, Repr

/-- Cell `(i, j)` of a table. -/
def Table.cellAt (t : Table) (i j : Nat) : Cell := (t.rows.getD i []).getD j .na

/-- Model of `raw_df[col] = raw_df[col].apply(f)`: overwrite column `j` in place with
`f` of each of its cells. -/
def mapCol (t : Table) (j : Nat) (f : Cell → Cell) : Table :=
  { t with rows := t.rows.map (fun r => r.set j (f (r.getD j .na))) }

/-- Model of `next((col for col in df.columns if key in col.lower()), None)`:
index of the first column whose lowercase name contains `key`. -/
def findCol (cols : List String) (key : String) : Option Nat :=
  cols.findIdx? (fun c => strHasSub (strLower c) key)

/-- The numeric-column selection of `normalise_data` (the second, effective
assignment of `numeric_cols`; the first is dead code, immediately
overwritten): keep a column unless it is a grouping column, its name
contains `"participant"`, or its lowercase name ends or starts with `"id"`
or contains `"participant id"`.  Returned as positional indices. -/
def numericColIdxs (cols : List String) (tpName condName : String) : List Nat :=
  (List.range cols.length).filter (fun j =>
    let c := cols.getD j ""
    !(c == tpName) && !(c == condName) &&
    !(strHasSub (strLower c) "participant") &&
    !(strEnds (strLower c) "id" || strStarts (strLower c) "id" ||
      strHasSub (strLower c) "participant id"))

/-- The `(timepoint, condition)` group key of one row, or `none` when either
key cell is missing (pandas `groupby` drops such rows). -/
def rowKey (ti ci : Nat) (r : List Cell) : Option (String × String) :=
  match r.getD ti .na, r.getD ci .na with
  | .na, _ => none
  | _, .na => none
  | a, b => some (cellStr a, cellStr b)

/-- Lexicographic comparison of group keys (pandas `groupby` sorts keys). -/
def keyLe (a b : String × String) : Bool :=
  if a.1 == b.1 then a.2 ≤ b.2 else a.1 < b.1

/-- Insert into a `keyLe`-sorted list. -/
def insertKey (x : String × String) : List (String × String) → List (String × String)
  | [] => [x]
  | y :: ys => if keyLe x y then x :: y :: ys else y :: insertKey x ys

/-- Sort group keys ascending. -/
def sortKeys : List (String × String) → List (String × String)
  | [] => []
  | x :: xs => insertKey x (sortKeys xs)

/-- The distinct group keys of a table, in the (sorted) order `groupby`
iterates them.  The order is immaterial to every property proved below. -/
def groupKeys (t : Table) (ti ci : Nat) : List (String × String) :=
  sortKeys ((t.rows.filterMap (rowKey ti ci)).dedup)

/-- Model of `group[column].apply(pd.to_numeric, errors="coerce").dropna()`: the valid
numeric values of column `j` over the rows of group `k`. -/
def groupVals (t : Table) (ti ci : Nat) (k : String × String) (j : Nat) : List ℚ :=
  t.rows.filterMap (fun r =>
    if rowKey ti ci r = some k then toNumeric (r.getD j .na) else none)

/-- Arithmetic mean of a non-empty value list (`Series.mean`). -/
def listMean (vs : List ℚ) : ℚ := vs.sum / (vs.length : ℚ)

/-- Model of `Series.std()` (sample statistic, `ddof=1`), carried as the sample
variance: `none` models pandas returning `NaN` (fewer than two values);
the code's `stdev` is the square root of this quantity, omitted because the
claims in scope concern only whether the statistic is `NaN`. -/
def sampleVar? (vs : List ℚ) : Option ℚ :=
  if 2 ≤ vs.length then
    some ((vs.map (fun x => (x - listMean vs) ^ 2)).sum / ((vs.length : ℚ) - 1))
  else none

/-- One entry of the grouped-statistics output (the `Variable.to_dict()`
payload of `normaliser.py`). -/
structure VarEntry where
  name : String
  mean : ℚ
  stdev? : Option ℚ
  timepoint : String
  condition : String
deriving DecidableEq, Repr

/-- The entries `normalise_data` emits for group `k` and column `j`: one
entry when the group has at least one valid numeric value, none otherwise. -/
def groupEntry (t : Table) (ti ci : Nat) (k : String × String) (j : Nat) : List VarEntry :=
  let vals := groupVals t ti ci k j
  if 0 < vals.length then
    [{ name := t.cols.getD j "", mean := listMean vals, stdev? := sampleVar? vals,
       timepoint := k.1, condition := k.2 }]
  else []

/-- Model of `normalise_data` of `normaliser.py`.  The caller's DataFrame is mutable
state; the function returns the emitted `{"variables": …}` list **and** the
table as it stands after the call (the standardisation on lines 78–79
writes into `raw_df` in place). -/
def normalise_data (t : Table) : Except PyErr (List VarEntry × Table) :=
  match findCol t.cols "timepoint" with
  | none => .error (.valueError "Could not find a column containing 'timepoint'")
  | some ti =>
    match findCol t.cols "condition" with
    | none => .error (.valueError "Could not find a column containing 'condition'")
    | some ci =>
      let t1 := mapCol t ci standardize_condition
      let t2 := mapCol t1 ti standardize_timepoint
      let tpName := t.cols.getD ti ""
      let condName := t.cols.getD ci ""
      let ncols := numericColIdxs t2.cols tpName condName
      let keys := groupKeys t2 ti ci
      .ok (keys.flatMap (fun k => ncols.flatMap (fun j => groupEntry t2 ti ci k j)), t2)

/-! ## Numeric matrices and the preprocessor
(`pca_pipeline_module.py` `create_numeric_df`, `pca_logic.py`
`PCAAnalysis.create_numeric_df`) -/

/-- A numeric matrix (pandas numeric DataFrame): named columns, rows of
cells that are either a number or `NaN` (`none`). -/
structure NTable where
  cols : List String
  rows : List (List (Option ℚ))
deriving DecidableEq, Repr

/-- pandas `DataFrame.empty`: true when either axis has length zero. -/
def NTable.isEmptyT (m : NTable) : Bool := m.rows.length == 0 || m.cols.length == 0

/-- Model of `raw_df.apply(pd.to_numeric, errors="coerce")`: cellwise coercion. -/
def coerceTable (t : Table) : NTable :=
  { cols := t.cols, rows := t.rows.map (fun r => r.map toNumeric) }

/-- Keep exactly the columns at the listed positions (used for
`dropna(axis=1)` and the identifier-column drop). -/
def selectCols (m : NTable) (keep : List Nat) : NTable :=
  { cols := keep.map (fun j => m.cols.getD j ""),
    rows := m.rows.map (fun r => keep.map (fun j => r.getD j none)) }

/-- Model of `dropna(axis=1, how="all")`: drop each column whose cells are all `NaN`. -/
def dropAllNaCols (m : NTable) : NTable :=
  selectCols m ((List.range m.cols.length).filter
    (fun j => m.rows.any (fun r => (r.getD j none).isSome)))

/-- Model of `dropna(axis=0, how="all")`: drop each row whose cells are all `NaN`. -/
def dropAllNaRows (m : NTable) : NTable :=
  { m with rows := m.rows.filter (fun r => r.any (fun c => c.isSome)) }

/-- Model of `df[col].mean()`: the column's mean over its non-missing values, `NaN`
(`none`) when every value is missing. -/
def colMean (m : NTable) (j : Nat) : Option ℚ :=
  let vals := m.rows.filterMap (fun r => r.getD j none)
  if vals.length == 0 then none else some (vals.sum / (vals.length : ℚ))

/-- Model of `df.fillna(df.mean())`: fill each missing cell with its column's
pre-imputation mean; a column with an undefined mean is left untouched. -/
def fillMean (m : NTable) : NTable :=
  { m with rows := m.rows.map (fun r =>
      (List.range m.cols.length).map (fun j =>
        (r.getD j none).orElse (fun _ => colMean m j))) }

/-- Model of `df.isnull().all().any()`: is some column entirely `NaN`? -/
def anyColAllNa (m : NTable) : Bool :=
  (List.range m.cols.length).any (fun j =>
    m.rows.all (fun r => (r.getD j none).isNone))

/-- Model of `df.drop(columns=[col for col in df.columns if 'participant id' in
col.lower()], errors='ignore')`. -/
def dropParticipantCols (m : NTable) : NTable :=
  selectCols m ((List.range m.cols.length).filter
    (fun j => !(strHasSub (strLower (m.cols.getD j "")) "participant id")))

/-- Model of `df[mask]` for a boolean row mask (`iso.fit_predict(df) != -1`). -/
def maskRows (m : NTable) (mask : List Bool) : NTable :=
  { m with rows := (m.rows.zip mask).filterMap (fun rb => if rb.2 then some rb.1 else none) }

/-- Model of `_remove_outliers_iforest` as nested in
`pca_pipeline_module.create_numeric_df` (lines 71–75): the IsolationForest
mask — a black-box numerical primitive — is the `predict` parameter; no
guard of any kind precedes the filtering. -/
def remove_outliers_iforest (predict : NTable → List Bool) (m : NTable) : NTable :=
  maskRows m (predict m)

/-- Model of `_remove_outliers_iforest` as nested in
`pca_logic.PCAAnalysis.create_numeric_df` (lines 24–32): returns the input
unchanged when `df.empty or df.shape[1] == 0`, otherwise filters rows by
the IsolationForest mask. -/
def remove_outliers_iforest_logic (predict : NTable → List Bool) (m : NTable) : NTable :=
  if m.isEmptyT || m.cols.length == 0 then m
  else maskRows m (predict m)

/-- Model of `create_numeric_df` of `pca_pipeline_module.py` (the data-processing
body, lines 89–146; file loading is out of scope, the raw table is the
input).  Type downcasting (lines 126–139), a lossy float memory
optimisation, is the identity in this exact-rational model. -/
def create_numeric_df (t : Table) (predict : NTable → List Bool) :
    Except PyErr NTable :=
  let m1 := dropAllNaCols (coerceTable t)
  let m2 := dropAllNaRows m1
  if m2.isEmptyT then
    .error (.dataProcessingError
      "The uploaded CSV is empty or contains no data after removing empty rows/columns.")
  else
    let m3 := fillMean m2
    if anyColAllNa m3 then
      .error (.dataProcessingError
        "Some columns contain only non-numeric data and could not be processed. Please clean the data.")
    else
      let m4 := dropParticipantCols m3
      let m5 := if !m4.isEmptyT then remove_outliers_iforest predict m4 else m4
      if m5.isEmptyT then
        .error (.dataProcessingError
          "After removing outliers, the dataset is empty. The contamination setting might be too high or the data is very uniform.")
      else .ok m5

/-! ## Decomposition results, rotation and PCA fitting
(`pca_pipeline_module.py`, `fit_pca` / `rotate_pca`) -/

/-- A labelled loadings matrix (a pandas DataFrame: index, columns, values). -/
structure LMatrix where
  rowLabels : List String
  colLabels : List String
  data : List (List ℚ)
deriving DecidableEq, Repr

/-- Model of `arr.shape[0]` of the 2-D values array. -/
def matNRows (arr : List (List ℚ)) : Nat := arr.length

/-- Model of `arr.shape[1]` of the 2-D values array (rectangular, as numpy arrays are). -/
def matNCols (arr : List (List ℚ)) : Nat := (arr.headD []).length

/-- Model of `arr.size` (total element count). -/
def matSize (arr : List (List ℚ)) : Nat := (arr.map List.length).sum

/-- Model of `np.all(arr == 0)`. -/
def matAllZero (arr : List (List ℚ)) : Bool := arr.all (fun r => r.all (fun x => x == 0))

/-- Model of `arr.T`. -/
def matTranspose (arr : List (List ℚ)) : List (List ℚ) :=
  (List.range (matNCols arr)).map (fun j => arr.map (fun r => r.getD j 0))

/-- Model of `DataFrame.T`: swap index and columns, transpose the values. -/
def transposeL (l : LMatrix) : LMatrix :=
  { rowLabels := l.colLabels, colLabels := l.rowLabels, data := matTranspose l.data }

/-- What `pca.fit_transform` hands back, as consumed by the pipeline:
the cumulative explained variance (`'explained_var'`), the per-component
variance ratios (`'variance_ratio'`) and the loadings DataFrame
(`pca_model.results['loadings']`). -/
structure FitResult where
  explained_var : List ℚ
  variance_ratio : List ℚ
  loadings : LMatrix
deriving DecidableEq, Repr

/-- A factor-rotation solver (`factor_analyzer.Rotator(method).fit_transform`):
a black-box numerical primitive that may fail to converge. -/
def RotSolver : Type := String → List (List ℚ) → Except PyErr (List (List ℚ))

/-- The body of `rotate_pca` inside its `try` (lines 198–272): precondition
checks on the loadings array, the shape-based transposition heuristic, the
solver call, and the write-back of the rotated loadings under the original
labels.  Any raised exception surfaces as `.error`. -/
def rotateBody (loadings : LMatrix) (rotator : RotSolver) (method : String) :
    Except PyErr LMatrix :=
  let arr := loadings.data
  if matSize arr == 0 then
    .error (.pcaCalculationError "Loadings array is empty")
  else if matAllZero arr then
    .error (.pcaCalculationError "All loadings are zero - cannot rotate")
  else if matNCols arr < 2 then
    .error (.pcaCalculationError
      ("Need at least 2 components for rotation, got " ++ toString (matNCols arr)))
  else
    let transposed := decide (matNRows arr < matNCols arr)
    let arr1 := if transposed then matTranspose arr else arr
    (rotator method arr1).map (fun rot =>
      let rot1 := if transposed then matTranspose rot else rot
      { loadings with data := rot1 })

/-- Model of `rotate_pca` (lines 192–283): the entire body sits in a `try` whose
`except Exception` handler logs the failure and continues — so the function
always returns (never raises), and on failure the stored loadings are left
untouched.  The second component is the log written during the call. -/
def rotate_pca (res : FitResult) (rotator : RotSolver) (method : String) :
    FitResult × List String :=
  match rotateBody res.loadings rotator method with
  | .ok l' =>
      ({ res with loadings := l' },
       ["Successfully applied " ++ method ++ " rotation"])
  | .error e =>
      (res,
       ["Rotation failed for '" ++ method ++ "': " ++ e.message,
        "Continuing with unrotated PCA loadings"])

/-- The body of `fit_pca` inside its `try` (lines 157–175): the
zero-column guard, the solver call, the `< 3` component check — a
`DataProcessingError` at this point, by lines 169–172 — and the optional
rotation. -/
def fitPcaBody (df : NTable) (fitTransform : NTable → Except PyErr FitResult)
    (rotation_method : String) (rotator : RotSolver) : Except PyErr FitResult :=
  if df.cols.length < 1 then
    .error (.pcaCalculationError
      "Cannot perform PCA with zero columns. Please check your CSV file.")
  else
    (fitTransform df).bind (fun res =>
      let n := res.explained_var.length
      if n < 3 then
        .error (.dataProcessingError
          ("PCA produced only " ++ toString n ++
           " component(s). At least 3 components are required for analysis. " ++
           "This may indicate insufficient variance in your data or too few variables."))
      else if rotation_method ≠ "" then .ok (rotate_pca res rotator rotation_method).1
      else .ok res)

/-- The `except` clauses of `fit_pca` (lines 177–190): a `ValueError` is
inspected for known substrings; **every** other exception — including the
`DataProcessingError` raised by the `< 3` component check, which is not a
`ValueError` — is re-raised as a `PCACalculationError`. -/
def fitPcaHandler (e : PyErr) (df : NTable) : PyErr :=
  match e with
  | .valueError msg =>
      if strHasSub msg "Input contains NaN" then
        .pcaCalculationError
          "PCA failed due to missing or non-numeric values after cleaning. Please check your data quality."
      else if strHasSub msg "must be at least 2" then
        .pcaCalculationError
          ("PCA requires at least 2 samples (rows), but received " ++
           toString df.rows.length ++ ". Please provide more data.")
      else
        .pcaCalculationError ("A value-related error occurred during PCA. Original error: " ++ msg)
  | e =>
      .pcaCalculationError
        ("An unexpected error occurred during PCA calculation. Original error: " ++ e.message)

/-- Model of `fit_pca` of `pca_pipeline_module.py` (lines 151–190).  The
`numeric_df is None` guard sits outside the `try` and keeps its
`DataProcessingError`; everything inside the `try` flows through
`fitPcaHandler` on failure. -/
def fit_pca (numeric_df : Option NTable) (fitTransform : NTable → Except PyErr FitResult)
    (rotation_method : String) (rotator : RotSolver) : Except PyErr FitResult :=
  match numeric_df with
  | none => .error (.dataProcessingError "Dataframe not created. Cannot fit PCA.")
  | some df =>
    match fitPcaBody df fitTransform rotation_method rotator with
    | .ok res => .ok res
    | .error e => .error (fitPcaHandler e df)

/-! ## Weighted variable-importance scorer
(`pca_pipeline_module.py` lines 348–389, `pca_logic.py` lines 89–119; the
scoring loops are identical) -/

/-- The inner accumulation loop: for components `i` below the length of the
shorter list, add `abs(loading) * variance` whenever
`abs(loading) > min_significance`. -/
def weightedScore (row vr : List ℚ) (min_significance : ℚ) : ℚ :=
  match row, vr with
  | l :: ls, w :: ws =>
      (if min_significance < |l| then |l| * w else 0) + weightedScore ls ws min_significance
  | _, _ => 0

/-- Model of `calculate_weighted_variable_importance`: transpose the stored loadings
to variable-major orientation, then score every variable (row).  Returned
as the (insertion-ordered) `results` dict: one `(variable, score)` pair per
row of the transposed loadings. -/
def calculate_weighted_variable_importance (loadings_raw : LMatrix)
    (variance_ratios : List ℚ) (min_significance : ℚ) : List (String × ℚ) :=
  let loadings := transposeL loadings_raw
  (loadings.rowLabels.zip loadings.data).map (fun nr =>
    (nr.1, weightedScore nr.2 variance_ratios min_significance))

/-! ## Definitions taken from the specification's words (for comparison
against the code; used only to settle refinement questions) -/

/-- Modelled from the spec (§4.1): the value contains `"pi"` as a
**two-letter token**, i.e. an occurrence of `p`,`i` that is a maximal
alphanumeric word of the string. -/
def hasPiTokenGo : Option Char → List Char → Bool
  | _, [] => false
  | prev, c :: rest =>
      (c == 'p' && rest.head? == some 'i' &&
       !((prev.map Char.isAlphanum).getD false) &&
       !((rest.tail.head?.map Char.isAlphanum).getD false)) ||
      hasPiTokenGo (some c) rest

/-- Modelled from the spec (§4.1): the value contains `"pi"` as a
**two-letter token** — an occurrence of `p`,`i` bounded on both sides by a
non-alphanumeric character or the string's edge. -/
def hasPiToken (s : String) : Bool := hasPiTokenGo none s.data

/-- Modelled from the spec (§4.2 step 4): the identifier-column heuristic as
the spec states it — case-insensitive containment of `"participant id"`, or
the name ending or starting with `"id"`. -/
def specIdHeuristic (name : String) : Bool :=
  strHasSub (strLower name) "participant id" ||
  strEnds (strLower name) "id" || strStarts (strLower name) "id"

/-! ## General list lemmas -/

lemma maskRows_rows_sublist (rs : List (List (Option ℚ))) (mask : List Bool) :
    ((rs.zip mask).filterMap (fun rb => if rb.2 then some rb.1 else none)).Sublist rs := by
  induction rs generalizing mask with
  | nil => simp
  | cons r rs ih =>
    cases mask with
    | nil => simp
    | cons b bs =>
      simp only [List.zip_cons_cons, List.filterMap_cons]
      cases b with
      | false => exact (ih bs).cons r
      | true => exact (ih bs).cons₂ r

lemma getD_range_map {α : Type} (n j : Nat) (f : Nat → α) (d : α) (hj : j < n) :
    ((List.range n).map f).getD j d = f j := by
  rw [List.getD_eq_getElem _ _ (by simpa using hj)]
  simp

lemma getD_mem {α : Type} (l : List α) (j : Nat) (d : α) (hj : j < l.length) :
    l.getD j d ∈ l := by
  rw [List.getD_eq_getElem _ _ hj]
  exact List.getElem_mem _

lemma getD_set_ne {α : Type} (l : List α) (i j : Nat) (v d : α) (hij : i ≠ j) :
    (l.set i v).getD j d = l.getD j d := by
  simp [List.getElem?_set_ne hij]

lemma getD_set_lt {α : Type} (l : List α) (i : Nat) (v d : α) (h : i < l.length) :
    (l.set i v).getD i d = v := by
  simp [List.getElem?_set_self h]

lemma cellAt_mapCol_ne (t : Table) (jc : Nat) (f : Cell → Cell) (i j : Nat) (hj : j ≠ jc) :
    (mapCol t jc f).cellAt i j = t.cellAt i j := by
  simp only [mapCol, Table.cellAt, List.getD_eq_getElem?_getD, List.getElem?_map]
  cases hrow : t.rows[i]? with
  | none => rfl
  | some r =>
    simp only [Option.map_some', Option.getD_some]
    rw [List.getElem?_set_ne (fun hh => hj hh.symm)]

lemma cellAt_mapCol_self (t : Table) (jc : Nat) (f : Cell → Cell)
    (hna : f Cell.na = Cell.na) (i : Nat) :
    (mapCol t jc f).cellAt i jc = f (t.cellAt i jc) := by
  simp only [mapCol, Table.cellAt, List.getD_eq_getElem?_getD, List.getElem?_map]
  cases hrow : t.rows[i]? with
  | none => simp [hna]
  | some r =>
    simp only [Option.map_some', Option.getD_some]
    by_cases hlen : jc < r.length
    · rw [List.getElem?_set_self hlen]
      simp
    · rw [List.set_eq_of_length_le (by omega)]
      rw [List.getElem?_eq_none (by omega)]
      simp [hna]

lemma firstDigits_isSome_of_mem (l : List Char) (c : Char) (hc : c ∈ l)
    (hcd : c.isDigit = true) : (firstDigits l).isSome = true := by
  induction l with
  | nil => simp at hc
  | cons a l ih =>
    by_cases ha : a.isDigit
    · simp [firstDigits, ha]
    · rcases List.mem_cons.mp hc with hc | hc
      · exact absurd (hc ▸ hcd) ha
      · simpa [firstDigits, ha] using ih hc

lemma firstDigits_eq_none_of_all (l : List Char)
    (h : ∀ c ∈ l, c.isDigit = false) : firstDigits l = none := by
  induction l with
  | nil => rfl
  | cons a l ih =>
    have ha := h a (by simp)
    simpa [firstDigits, ha] using ih (fun c hc => h c (by simp [hc]))

/-! ## C5 — timepoint standardisation -/

/-- Claim C5, counterexample.  `"spine 2"` contains neither `"post injury"`
nor `"pi"` as a two-letter token, yet `standardize_timepoint` rewrites it to
`PI-2`: the code matches `"pi"` as a bare substring, not as a token. -/
theorem c5_counterexample :
    standardize_timepoint (Cell.str "spine 2") = Cell.str "PI-2" ∧
    hasPiToken (strLower (strTrim "spine 2")) = false ∧
    strHasSub (strLower (strTrim "spine 2")) "post injury" = false ∧
    strTrim "spine 2" = "spine 2" := by
  refine ⟨rfl, by decide, by decide, rfl⟩

/-- Claim C5, amended.  `standardize_timepoint` returns `PI-<d>` (with `<d>`
the first run of decimal digits) exactly when the trimmed, lowercased value
contains `"post injury"` or the **substring** `"pi"` and holds at least one
digit; with the keyword but no digit, and without the keyword, it returns
the trimmed value; missing input passes through unchanged. -/
theorem c5_amended (s : String) :
    (standardize_timepoint Cell.na = Cell.na) ∧
    ((strHasSub (strLower (strTrim s)) "post injury" ||
      strHasSub (strLower (strTrim s)) "pi") = true →
      (((strTrim s).data.any Char.isDigit = true →
        ∃ ds, firstDigits (strTrim s).data = some ds ∧
          standardize_timepoint (Cell.str s) = Cell.str ("PI-" ++ ⟨ds⟩)) ∧
       ((strTrim s).data.any Char.isDigit = false →
        standardize_timepoint (Cell.str s) = Cell.str (strTrim s)))) ∧
    ((strHasSub (strLower (strTrim s)) "post injury" ||
      strHasSub (strLower (strTrim s)) "pi") = false →
      standardize_timepoint (Cell.str s) = Cell.str (strTrim s)) := by
  refine ⟨rfl, fun hkw => ⟨fun hdig => ?_, fun hdig => ?_⟩, fun hkw => ?_⟩
  · have hsome : (firstDigits (strTrim s).data).isSome = true := by
      obtain ⟨c, hc, hcd⟩ := List.any_eq_true.mp hdig
      exact firstDigits_isSome_of_mem _ c hc hcd
    obtain ⟨ds, hds⟩ := Option.isSome_iff_exists.mp hsome
    refine ⟨ds, hds, ?_⟩
    simp [standardize_timepoint, cellStr, hkw, hds]
  · have hnone : firstDigits (strTrim s).data = none := by
      refine firstDigits_eq_none_of_all _ (fun c hc => ?_)
      by_contra hcd
      simp only [Bool.not_eq_false] at hcd
      rw [List.any_eq_true.mpr ⟨c, hc, hcd⟩] at hdig
      exact Bool.true_eq_false.mp hdig
    simp [standardize_timepoint, cellStr, hkw, hnone]
  · simp [standardize_timepoint, cellStr, hkw]

/-- Claim C5, witness: for the amended theorem at `"pi 2 of 3"`: the spec's
preserved edge case — the FIRST digit run wins, yielding `PI-2`. -/
theorem c5_amended_witness :
    ∃ ds, firstDigits (strTrim "pi 2 of 3").data = some ds ∧
      standardize_timepoint (Cell.str "pi 2 of 3") = Cell.str ("PI-" ++ ⟨ds⟩) :=
  ((c5_amended "pi 2 of 3").2.1 (by decide)).1 (by decide)

/-! ## C4 — missing grouping columns -/

/-- A table with no column containing "timepoint". -/
def tableNoTimepoint : Table :=
  { cols := ["Participant ID", "Walk Task Condition", "Speed"],
    rows := [[.num 1, .str "ST", .num 2]] }

/-- Claim C4, counterexample.  With no timepoint column, `normalise_data`
raises Python's builtin `ValueError` — the `flask-server` package defines
no `DataProcessingError` at all — so the claimed error kind is wrong, even
though the message does mention "timepoint". -/
theorem c4_counterexample :
    normalise_data tableNoTimepoint =
      .error (.valueError "Could not find a column containing 'timepoint'") ∧
    isDataProcessingError (normalise_data tableNoTimepoint) = false := ⟨rfl, rfl⟩

/-- Claim C4, amended.  For every table with no column whose lowercase name
contains "timepoint", `normalise_data` fails with a `ValueError` whose
message mentions "timepoint"; analogously (given a timepoint column) with
"condition".  The error class is `ValueError`, not `DataProcessingError`. -/
theorem c4_amended (t u : Table)
    (h1 : ∀ c ∈ t.cols, strHasSub (strLower c) "timepoint" = false)
    (h2 : ∃ c ∈ u.cols, strHasSub (strLower c) "timepoint" = true)
    (h3 : ∀ c ∈ u.cols, strHasSub (strLower c) "condition" = false) :
    (normalise_data t =
       .error (.valueError "Could not find a column containing 'timepoint'") ∧
     strHasSub "Could not find a column containing 'timepoint'" "timepoint" = true) ∧
    (normalise_data u =
       .error (.valueError "Could not find a column containing 'condition'") ∧
     strHasSub "Could not find a column containing 'condition'" "condition" = true) := by
  have ht : findCol t.cols "timepoint" = none :=
    List.findIdx?_eq_none_iff.mpr h1
  have hu1 : (findCol u.cols "timepoint").isSome = true := by
    rw [findCol, List.findIdx?_isSome]
    obtain ⟨c, hc, hpc⟩ := h2
    exact List.any_eq_true.mpr ⟨c, hc, hpc⟩
  have hu2 : findCol u.cols "condition" = none :=
    List.findIdx?_eq_none_iff.mpr h3
  obtain ⟨ti, hti⟩ := Option.isSome_iff_exists.mp hu1
  constructor
  · refine ⟨?_, by decide⟩
    rw [normalise_data, ht]
  · refine ⟨?_, by decide⟩
    rw [normalise_data, hti, hu2]

/-- Claim C4, witness:: the amended theorem applied at two concrete tables. -/
theorem c4_amended_witness :
    (normalise_data { cols := ["Condition", "Gait Speed"], rows := [] } =
       .error (.valueError "Could not find a column containing 'timepoint'") ∧
     strHasSub "Could not find a column containing 'timepoint'" "timepoint" = true) ∧
    (normalise_data { cols := ["Timepoint", "Gait Speed"], rows := [] } =
       .error (.valueError "Could not find a column containing 'condition'") ∧
     strHasSub "Could not find a column containing 'condition'" "condition" = true) :=
  c4_amended { cols := ["Condition", "Gait Speed"], rows := [] }
    { cols := ["Timepoint", "Gait Speed"], rows := [] }
    (by decide) (by decide) (by decide)

/-! ## C9 — `normalise_data` mutates the caller's table -/

/-- A well-formed input table whose condition and timepoint labels are in
free-text form. -/
def tableMut : Table :=
  { cols := ["Timepoint", "Walk Task Condition", "Speed"],
    rows := [[.str "post injury 1", .str "single task", .num 5]] }

/-- Claim C9, counterexample.  `normalise_data` succeeds on `tableMut`, yet
the caller's table afterwards is not the original: lines 78–79 write the
standardized condition/timepoint values back into `raw_df` in place, so the
stage is not a pure function of its input. -/
theorem c9_counterexample :
    (Except.isOk (normalise_data tableMut) = true) ∧
    (okValue? (normalise_data tableMut)).map (fun p => p.2) ≠ some tableMut := by
  refine ⟨rfl, ?_⟩
  intro hcontra
  have : ({ cols := tableMut.cols,
            rows := [[.str "PI-1", .str "ST", .num 5]] } : Table) = tableMut := by
    exact Option.some_injective _ hcontra
  simp [tableMut] at this

/-- Claim C9, amended.  `normalise_data` is not pure in its input table: it
overwrites the condition column and then the timepoint column with their
standardized values — and nothing else.  Every other cell, the column
names, and the row count are unchanged; when the two grouping columns are
distinct, the final key columns hold exactly the standardized originals. -/
theorem c9_amended (t : Table) (out : List VarEntry) (t' : Table) (ti ci : Nat)
    (hti : findCol t.cols "timepoint" = some ti)
    (hci : findCol t.cols "condition" = some ci)
    (h : normalise_data t = .ok (out, t')) :
    t'.cols = t.cols ∧ t'.rows.length = t.rows.length ∧
    (∀ i j, j ≠ ti → j ≠ ci → t'.cellAt i j = t.cellAt i j) ∧
    (ti ≠ ci → ∀ i,
       t'.cellAt i ti = standardize_timepoint (t.cellAt i ti) ∧
       t'.cellAt i ci = standardize_condition (t.cellAt i ci)) := by
  rw [normalise_data, hti, hci] at h
  have ht' : t' = mapCol (mapCol t ci standardize_condition) ti standardize_timepoint := by
    have := congrArg (fun x => (okValue? x).map (fun p => p.2)) h
    simpa [okValue?] using this.symm
  subst ht'
  refine ⟨rfl, by simp [mapCol], fun i j hjti hjci => ?_, fun hne i => ⟨?_, ?_⟩⟩
  · rw [cellAt_mapCol_ne _ _ _ _ _ hjti, cellAt_mapCol_ne _ _ _ _ _ hjci]
  · rw [cellAt_mapCol_self _ _ _ rfl, cellAt_mapCol_ne _ _ _ _ _ hne]
  · rw [cellAt_mapCol_ne _ _ _ _ _ (fun hh => hne hh.symm), cellAt_mapCol_self _ _ _ rfl]

/-- The variables list `normalise_data` returns on `tableMut`. -/
def mutOut : List VarEntry := ((okValue? (normalise_data tableMut)).getD ([], tableMut)).1

/-- The caller's table as it stands after `normalise_data tableMut`. -/
def mutTable : Table := ((okValue? (normalise_data tableMut)).getD ([], tableMut)).2

/-- Claim C9, witness: for the amended theorem at `tableMut`. -/
theorem c9_amended_witness :
    mutTable.cols = tableMut.cols ∧ mutTable.rows.length = tableMut.rows.length ∧
    (∀ i j, j ≠ 0 → j ≠ 1 → mutTable.cellAt i j = tableMut.cellAt i j) ∧
    ((0 : Nat) ≠ 1 → ∀ i,
       mutTable.cellAt i 0 = standardize_timepoint (tableMut.cellAt i 0) ∧
       mutTable.cellAt i 1 = standardize_condition (tableMut.cellAt i 1)) :=
  c9_amended tableMut mutOut mutTable 0 1 rfl rfl rfl

/-! ## C1 — `fit_pca` with fewer than 3 components -/

/-- Claim C1.  When the decomposition itself succeeds but yields fewer than 3
components, `fit_pca` fails with a `PCACalculationError` — and with no
other error kind.  (Internally, line 169 raises a `DataProcessingError`,
but that exception is not a `ValueError`, so the `except Exception` clause
on line 188 catches it and re-raises it as the `PCACalculationError` the
caller sees.) -/
theorem c1_few_components (df : NTable) (ft : NTable → Except PyErr FitResult)
    (rm : String) (rot : RotSolver) (res : FitResult)
    (hfit : ft df = .ok res) (hlt : res.explained_var.length < 3) :
    ∃ msg, fit_pca (some df) ft rm rot = .error (.pcaCalculationError msg) := by
  rw [fit_pca, fitPcaBody]
  by_cases hc : df.cols.length < 1
  · rw [if_pos hc]
    exact ⟨_, rfl⟩
  · rw [if_neg hc, hfit]
    simp only [Except.bind, if_pos hlt]
    exact ⟨_, rfl⟩

/-- A decomposition outcome with only 2 components. -/
def twoCompResult : FitResult :=
  { explained_var := [1, 1], variance_ratio := [1, 1],
    loadings := { rowLabels := ["Speed", "Cadence"], colLabels := ["PC1", "PC2"],
                  data := [[1, 0], [0, 1]] } }

/-- Claim C1, witness:: a concrete 1-column matrix whose decomposition returns
2 components. -/
theorem c1_few_components_witness :
    ∃ msg, fit_pca (some { cols := ["Speed"], rows := [[some 1], [some 2]] })
      (fun _ => .ok twoCompResult) "" (fun _ arr => .ok arr) =
      .error (.pcaCalculationError msg) :=
  c1_few_components _ (fun _ => .ok twoCompResult) "" (fun _ arr => .ok arr)
    twoCompResult rfl (by decide)

/-! ## C2 — rotation failure is non-fatal and preserves the loadings -/

/-- Claim C2.  Whatever makes the body of `rotate_pca` fail — empty loadings,
all-zero loadings, fewer than 2 components, or a non-converging solver —
the surrounding `except` swallows the exception: `rotate_pca` still
returns (it is a total function into a state, never an `Except`), the
stored result including its loadings is exactly the original, and the
failure is logged.  Consequently `fit_pca` still succeeds, returning the
unrotated result. -/
theorem c2_rotation_failure_nonfatal (res : FitResult) (rotator : RotSolver)
    (method : String) (e : PyErr)
    (h : rotateBody res.loadings rotator method = .error e) :
    (rotate_pca res rotator method).1 = res ∧
    (rotate_pca res rotator method).1.loadings = res.loadings ∧
    ("Rotation failed for '" ++ method ++ "': " ++ e.message) ∈
      (rotate_pca res rotator method).2 ∧
    (∀ df ft, ft df = .ok res → ¬ df.cols.length < 1 →
      ¬ res.explained_var.length < 3 → method ≠ "" →
      fit_pca (some df) ft method rotator = .ok res) := by
  have hrp : rotate_pca res rotator method =
      (res, ["Rotation failed for '" ++ method ++ "': " ++ e.message,
             "Continuing with unrotated PCA loadings"]) := by
    rw [rotate_pca, h]
  refine ⟨by rw [hrp], by rw [hrp], by rw [hrp]; exact List.mem_cons_self _ _,
    fun df ft hft hc hn hm => ?_⟩
  rw [fit_pca, fitPcaBody, if_neg hc, hft]
  simp only [Except.bind, if_neg hn, if_pos hm, hrp]

/-- A solver that never converges. -/
def divergingSolver : RotSolver := fun _ _ =>
  .error (.otherError "Failed to converge")

/-- A decomposition outcome with 3 components and well-formed, non-zero
loadings (so only the solver itself can make rotation fail). -/
def threeCompResult : FitResult :=
  { explained_var := [1, 1, 1], variance_ratio := [1, 1, 1],
    loadings := { rowLabels := ["Speed", "Cadence", "Stride"],
                  colLabels := ["PC1", "PC2", "PC3"],
                  data := [[1, 0, 0], [0, 1, 0], [0, 0, 1]] } }

/-- Claim C2, witness:: a concrete 3-component result whose rotation solver
fails to converge. -/
theorem c2_rotation_failure_nonfatal_witness :
    (rotate_pca threeCompResult divergingSolver "varimax").1 = threeCompResult ∧
    (rotate_pca threeCompResult divergingSolver "varimax").1.loadings = threeCompResult.loadings ∧
    ("Rotation failed for '" ++ "varimax" ++ "': " ++
      (PyErr.otherError "Failed to converge").message) ∈
      (rotate_pca threeCompResult divergingSolver "varimax").2 ∧
    (∀ df ft, ft df = .ok threeCompResult → ¬ df.cols.length < 1 →
      ¬ threeCompResult.explained_var.length < 3 → "varimax" ≠ "" →
      fit_pca (some df) ft "varimax" divergingSolver = .ok threeCompResult) :=
  c2_rotation_failure_nonfatal threeCompResult divergingSolver "varimax"
    (.otherError "Failed to converge") rfl

/-! ## C6 — the outlier filter's guard -/

/-- A mask flagging the first row anomalous and keeping the rest — one of
the outcomes the spec's own black-box contract allows (with
`contamination = 0.05` the lowest 5% of 20 rows, i.e. one row, is
flagged). -/
def dropFirstMask : NTable → List Bool :=
  fun m => false :: List.replicate (m.rows.length - 1) true

/-- A 20-row, single-column numeric matrix. -/
def oneColMatrix : NTable :=
  { cols := ["Speed"], rows := (List.range 20).map (fun i => [some (i : ℚ)]) }

/-- Claim C6, counterexample.  The guard in `pca_logic._remove_outliers_iforest`
is `df.empty or df.shape[1] == 0` – zero columns, not one.  A single-column
matrix is therefore filtered like any other, and with an anomaly mask the
black-box contract permits, the result differs from the input.  (The
`pca_pipeline_module` variant has no guard at all.) -/
theorem c6_counterexample :
    remove_outliers_iforest_logic dropFirstMask oneColMatrix ≠ oneColMatrix ∧
    oneColMatrix.cols.length = 1 ∧
    (remove_outliers_iforest_logic dropFirstMask oneColMatrix).rows.length = 19 := by
  refine ⟨?_, rfl, rfl⟩
  intro hcontra
  have := congrArg (fun m => m.rows.length) hcontra
  simp only at this
  rw [show (remove_outliers_iforest_logic dropFirstMask oneColMatrix).rows.length = 19
      from rfl] at this
  rw [show oneColMatrix.rows.length = 20 from rfl] at this
  exact absurd this (by decide)

/-- Claim C6, amended.  The filter returns the matrix unchanged when it is
empty or has zero columns (the code's actual guard); a single-column matrix
is filtered like any other.  What does hold unconditionally: filtering only
ever removes rows — the column set is untouched and the surviving rows are
a sublist of the originals. -/
theorem c6_amended (predict : NTable → List Bool) (m : NTable) :
    ((m.rows = [] ∨ m.cols = []) → remove_outliers_iforest_logic predict m = m) ∧
    (remove_outliers_iforest_logic predict m).cols = m.cols ∧
    ((remove_outliers_iforest_logic predict m).rows).Sublist m.rows := by
  rw [remove_outliers_iforest_logic]
  by_cases hg : (m.isEmptyT || m.cols.length == 0) = true
  · rw [if_pos hg]
    exact ⟨fun _ => rfl, rfl, List.Sublist.refl _⟩
  · rw [if_neg hg]
    refine ⟨fun hem => ?_, rfl, maskRows_rows_sublist _ _⟩
    exfalso
    apply hg
    rcases hem with hem | hem <;> simp [NTable.isEmptyT, hem]

/-- Claim C6, witness:: the amended theorem at a concrete zero-row matrix
(where the guard does return the input unchanged). -/
theorem c6_amended_witness :
    ((({ cols := ["Speed"], rows := [] } : NTable).rows = [] ∨
      ({ cols := ["Speed"], rows := [] } : NTable).cols = []) →
      remove_outliers_iforest_logic dropFirstMask { cols := ["Speed"], rows := [] } =
        { cols := ["Speed"], rows := [] }) ∧
    (remove_outliers_iforest_logic dropFirstMask { cols := ["Speed"], rows := [] }).cols =
      ({ cols := ["Speed"], rows := [] } : NTable).cols ∧
    ((remove_outliers_iforest_logic dropFirstMask
        { cols := ["Speed"], rows := [] }).rows).Sublist
      ({ cols := ["Speed"], rows := [] } : NTable).rows :=
  c6_amended dropFirstMask { cols := ["Speed"], rows := [] }

/-! ## C3 — the weighted variable-importance scorer -/

lemma weightedScore_eq_sum (row vr : List ℚ) (ms : ℚ) :
    weightedScore row vr ms =
      ∑ k ∈ Finset.range (min row.length vr.length),
        (if ms < |row.getD k 0| then |row.getD k 0| * vr.getD k 0 else 0) := by
  induction row generalizing vr with
  | nil => simp [weightedScore]
  | cons l ls ih =>
    cases vr with
    | nil => simp [weightedScore]
    | cons w ws =>
      have hmin : min (l :: ls).length (w :: ws).length = min ls.length ws.length + 1 := by
        simp [Nat.succ_min_succ]
      rw [weightedScore, hmin, Finset.sum_range_succ']
      simp only [List.getD_cons_succ, List.getD_cons_zero]
      rw [ih ws]
      ring

lemma weightedScore_nonneg (row vr : List ℚ) (ms : ℚ) (hv : ∀ w ∈ vr, 0 ≤ w) :
    0 ≤ weightedScore row vr ms := by
  induction row generalizing vr with
  | nil => simp [weightedScore]
  | cons l ls ih =>
    cases vr with
    | nil => simp [weightedScore]
    | cons w ws =>
      rw [weightedScore]
      refine add_nonneg ?_ (ih ws (fun x hx => hv x (List.mem_cons_of_mem _ hx)))
      split
      · exact mul_nonneg (abs_nonneg _) (hv w (List.mem_cons_self _ _))
      · exact le_refl 0

/-- Claim C3.  The scorer, run on a loadings matrix whose variable-major form
is `L = transposeL raw` and a variance-ratio vector `v` (entrywise
non-negative, as explained-variance ratios are), returns a mapping defined
on every variable — one pair per row of `L`, in order; each variable's
score is exactly the sum over components `k < min(#components, |v|)` of
`|L[var,k]| * v[k]` restricted to `|L[var,k]| > min_significance`; hence
every score is non-negative, and a variable with no significant component
scores exactly `0` while still being present in the mapping. -/
theorem c3_importance_scorer (raw : LMatrix) (v : List ℚ) (ms : ℚ)
    (hlab : raw.colLabels.length = matNCols raw.data)
    (hv : ∀ w ∈ v, 0 ≤ w) :
    ((calculate_weighted_variable_importance raw v ms).map Prod.fst =
      (transposeL raw).rowLabels) ∧
    (∀ i, i < (calculate_weighted_variable_importance raw v ms).length →
      (calculate_weighted_variable_importance raw v ms).getD i ("", 0) =
        ((transposeL raw).rowLabels.getD i "",
         ∑ k ∈ Finset.range (min ((transposeL raw).data.getD i []).length v.length),
           if ms < |((transposeL raw).data.getD i []).getD k 0| then
             |((transposeL raw).data.getD i []).getD k 0| * v.getD k 0 else 0)) ∧
    (∀ p ∈ calculate_weighted_variable_importance raw v ms, 0 ≤ p.2) ∧
    (∀ i, i < (calculate_weighted_variable_importance raw v ms).length →
      (∀ k, k < min ((transposeL raw).data.getD i []).length v.length →
        |((transposeL raw).data.getD i []).getD k 0| ≤ ms) →
      ((calculate_weighted_variable_importance raw v ms).getD i ("", 0)).2 = 0) := by
  have hlen : (transposeL raw).rowLabels.length = (transposeL raw).data.length := by
    simp [transposeL, matTranspose, hlab]
  have hdef : calculate_weighted_variable_importance raw v ms =
      ((transposeL raw).rowLabels.zip (transposeL raw).data).map
        (fun nr => (nr.1, weightedScore nr.2 v ms)) := rfl
  have hgetD : ∀ i, i < (calculate_weighted_variable_importance raw v ms).length →
      (calculate_weighted_variable_importance raw v ms).getD i ("", 0) =
        ((transposeL raw).rowLabels.getD i "",
         weightedScore ((transposeL raw).data.getD i []) v ms) := by
    intro i hi
    rw [hdef] at hi ⊢
    have hi' : i < ((transposeL raw).rowLabels.zip (transposeL raw).data).length := by
      simpa using hi
    have hzl : i < (transposeL raw).rowLabels.length := by
      rw [List.length_zip] at hi'; omega
    have hzd : i < (transposeL raw).data.length := by
      rw [List.length_zip] at hi'; omega
    rw [List.getD_eq_getElem _ _ (by simpa using hi')]
    simp only [List.getElem_map, List.getElem_zip]
    rw [List.getD_eq_getElem _ _ hzl, List.getD_eq_getElem _ _ hzd]
  refine ⟨?_, fun i hi => ?_, fun p hp => ?_, fun i hi hall => ?_⟩
  · rw [hdef, List.map_map]
    have : (Prod.fst ∘ fun nr : String × List ℚ => (nr.1, weightedScore nr.2 v ms)) =
        Prod.fst := rfl
    rw [this]
    exact List.map_fst_zip _ _ (le_of_eq hlen)
  · rw [hgetD i hi, weightedScore_eq_sum]
  · rw [hdef] at hp
    obtain ⟨nr, _, hnr⟩ := List.mem_map.mp hp
    rw [← hnr]
    exact weightedScore_nonneg _ _ _ hv
  · rw [hgetD i hi]
    simp only
    rw [weightedScore_eq_sum]
    refine Finset.sum_eq_zero (fun k hk => ?_)
    rw [if_neg (not_lt.mpr (hall k (Finset.mem_range.mp hk)))]

/-- A 2-component, 1-variable loadings matrix in the solver's
component-major orientation. -/
def rawLoadW : LMatrix :=
  { rowLabels := ["PC1", "PC2"], colLabels := ["Speed"], data := [[1], [0]] }

/-- Claim C3, witness:: the scorer theorem at a concrete loadings matrix and
variance-ratio vector. -/
theorem c3_importance_scorer_witness :
    ((calculate_weighted_variable_importance rawLoadW [1, 1] 0).map Prod.fst =
      (transposeL rawLoadW).rowLabels) ∧
    (∀ i, i < (calculate_weighted_variable_importance rawLoadW [1, 1] 0).length →
      (calculate_weighted_variable_importance rawLoadW [1, 1] 0).getD i ("", 0) =
        ((transposeL rawLoadW).rowLabels.getD i "",
         ∑ k ∈ Finset.range (min ((transposeL rawLoadW).data.getD i []).length
             ([1, 1] : List ℚ).length),
           if (0:ℚ) < |((transposeL rawLoadW).data.getD i []).getD k 0| then
             |((transposeL rawLoadW).data.getD i []).getD k 0| *
               ([1, 1] : List ℚ).getD k 0 else 0)) ∧
    (∀ p ∈ calculate_weighted_variable_importance rawLoadW [1, 1] 0, 0 ≤ p.2) ∧
    (∀ i, i < (calculate_weighted_variable_importance rawLoadW [1, 1] 0).length →
      (∀ k, k < min ((transposeL rawLoadW).data.getD i []).length
          ([1, 1] : List ℚ).length →
        |((transposeL rawLoadW).data.getD i []).getD k 0| ≤ 0) →
      ((calculate_weighted_variable_importance rawLoadW [1, 1] 0).getD i ("", 0)).2 = 0) :=
  c3_importance_scorer rawLoadW [1, 1] 0 rfl (by decide)

/-! ## C7 / C8 — preprocessor invariants -/

/-- The matrix has no missing cells. -/
def noMissing (m : NTable) : Prop := ∀ r ∈ m.rows, ∀ c ∈ r, c.isSome = true

lemma fillMean_rows_shape (m : NTable) :
    ∀ r ∈ (fillMean m).rows, r.length = m.cols.length := by
  intro r hr
  obtain ⟨r0, _, hr0⟩ := List.mem_map.mp hr
  rw [← hr0]
  simp

lemma fillMean_noMissing (m : NTable) (h : anyColAllNa (fillMean m) = false) :
    noMissing (fillMean m) := by
  intro r hr c hc
  obtain ⟨r0, hr0m, hr0⟩ := List.mem_map.mp hr
  rw [← hr0] at hc
  obtain ⟨j, hjr, hcj⟩ := List.mem_map.mp hc
  have hj : j < m.cols.length := List.mem_range.mp hjr
  by_contra hno
  have hcnone : c = none := by
    cases c with
    | none => rfl
    | some a => simp at hno
  -- The cell is `orig.orElse (colMean …)`; if it is `none`, the column mean
  -- is undefined, so the whole column was missing — and then the whole
  -- column of `fillMean m` is missing, contradicting the `isnull` check.
  have hmean : colMean m j = none := by
    rw [hcnone] at hcj
    cases horig : r0.getD j none with
    | some a => rw [horig] at hcj; exact absurd hcj.symm (by simp [Option.orElse])
    | none => rw [horig] at hcj; simpa [Option.orElse] using hcj
  have hvals : ∀ r' ∈ m.rows, r'.getD j none = none := by
    rw [colMean] at hmean
    by_cases hz : (m.rows.filterMap (fun r => r.getD j none)).length == 0
    · intro r' hr'
      have : m.rows.filterMap (fun r => r.getD j none) = [] :=
        List.length_eq_zero.mp (by simpa using hz)
      exact List.filterMap_eq_nil_iff.mp this r' hr'
    · rw [if_neg hz] at hmean
      exact absurd hmean (by simp)
  have : anyColAllNa (fillMean m) = true := by
    rw [anyColAllNa]
    refine List.any_eq_true.mpr ⟨j, by simpa [fillMean] using hjr, ?_⟩
    refine List.all_eq_true.mpr (fun r' hr' => ?_)
    obtain ⟨r1, hr1m, hr1⟩ := List.mem_map.mp hr'
    rw [← hr1, getD_range_map _ _ _ _ (by simpa [fillMean] using hj)]
    rw [hvals r1 hr1m, hmean]
    rfl
  rw [this] at h
  exact Bool.true_eq_false.mp h

lemma selectCols_noMissing (m : NTable) (keep : List Nat)
    (hk : ∀ j ∈ keep, j < m.cols.length)
    (hshape : ∀ r ∈ m.rows, r.length = m.cols.length)
    (hnm : noMissing m) : noMissing (selectCols m keep) := by
  intro r' hr' c hc
  obtain ⟨r, hrm, hr⟩ := List.mem_map.mp hr'
  rw [← hr] at hc
  obtain ⟨j, hjk, hcj⟩ := List.mem_map.mp hc
  have hj : j < r.length := by rw [hshape r hrm]; exact hk j hjk
  rw [← hcj]
  exact hnm r hrm _ (getD_mem _ _ _ hj)

lemma maskRows_noMissing (m : NTable) (mask : List Bool) (hnm : noMissing m) :
    noMissing (maskRows m mask) := by
  intro r hr c hc
  exact hnm r ((maskRows_rows_sublist m.rows mask).subset hr) c hc

lemma dropParticipantCols_names (m : NTable) :
    ∀ name ∈ (dropParticipantCols m).cols,
      strHasSub (strLower name) "participant id" = false := by
  intro name hname
  obtain ⟨j, hjk, hj⟩ := List.mem_map.mp hname
  have := (List.mem_filter.mp hjk).2
  rw [← hj]
  simpa using this

lemma dropParticipantCols_retains (m : NTable) (name : String)
    (hmem : name ∈ m.cols)
    (hname : strHasSub (strLower name) "participant id" = false) :
    name ∈ (dropParticipantCols m).cols := by
  obtain ⟨j, hj, hget⟩ := List.getElem_of_mem hmem
  refine List.mem_map.mpr ⟨j, ?_, ?_⟩
  · refine List.mem_filter.mpr ⟨List.mem_range.mpr hj, ?_⟩
    rw [List.getD_eq_getElem _ _ hj, hget]
    simpa using hname
  · rw [List.getD_eq_getElem _ _ hj, hget]

lemma fillMean_shape_cols (m : NTable) : (fillMean m).cols = m.cols := rfl

/-- Shared decomposition of a successful `create_numeric_df` run: the
`isnull` check passed on the imputed matrix, and the output is the
participant-id-dropped matrix, possibly row-filtered by the outlier mask. -/
lemma create_numeric_df_ok_cases (t : Table) (predict : NTable → List Bool)
    (out : NTable) (h : create_numeric_df t predict = .ok out) :
    anyColAllNa (fillMean (dropAllNaRows (dropAllNaCols (coerceTable t)))) = false ∧
    (out = dropParticipantCols (fillMean (dropAllNaRows (dropAllNaCols (coerceTable t)))) ∨
     out = maskRows
       (dropParticipantCols (fillMean (dropAllNaRows (dropAllNaCols (coerceTable t)))))
       (predict (dropParticipantCols
         (fillMean (dropAllNaRows (dropAllNaCols (coerceTable t))))))) := by
  simp only [create_numeric_df, remove_outliers_iforest] at h
  set m2 := dropAllNaRows (dropAllNaCols (coerceTable t)) with hm2
  set m3 := fillMean m2 with hm3
  set m4 := dropParticipantCols m3 with hm4
  by_cases h1 : m2.isEmptyT = true
  · rw [if_pos h1] at h; exact absurd h (by simp)
  rw [if_neg h1] at h
  by_cases h2 : anyColAllNa m3 = true
  · rw [if_pos h2] at h; exact absurd h (by simp)
  rw [if_neg h2] at h
  refine ⟨by simpa using h2, ?_⟩
  by_cases h3 : m4.isEmptyT = true
  · rw [if_neg (by simp [h3] : ¬ (!m4.isEmptyT) = true)] at h
    by_cases h4 : m4.isEmptyT = true
    · rw [if_pos h4] at h; exact absurd h (by simp)
    · exact absurd h3 h4
  · rw [if_pos (by simp [h3] : (!m4.isEmptyT) = true)] at h
    by_cases h4 : (maskRows m4 (predict m4)).isEmptyT = true
    · rw [if_pos h4] at h; exact absurd h (by simp)
    · rw [if_neg h4] at h
      right; exact (Except.ok.inj h).symm

/-- Claim C7.  Whenever preprocessing succeeds, the resulting numeric matrix
has zero missing cells — every remaining hole was filled with its column's
pre-imputation mean, and a column that would have defeated imputation is
rejected by the `isnull` check — and no surviving column's name contains
"participant id" in any case. -/
theorem c7_preprocessor_invariant (t : Table) (predict : NTable → List Bool)
    (out : NTable) (h : create_numeric_df t predict = .ok out) :
    noMissing out ∧
    (∀ name ∈ out.cols, strHasSub (strLower name) "participant id" = false) := by
  obtain ⟨hna, hout⟩ := create_numeric_df_ok_cases t predict out h
  set m3 := fillMean (dropAllNaRows (dropAllNaCols (coerceTable t))) with hm3
  have hnm3 : noMissing m3 := fillMean_noMissing _ hna
  have hshape3 : ∀ r ∈ m3.rows, r.length = m3.cols.length := fillMean_rows_shape _
  have hnm4 : noMissing (dropParticipantCols m3) := by
    refine selectCols_noMissing _ _ (fun j hj => ?_) hshape3 hnm3
    exact List.mem_range.mp (List.mem_filter.mp hj).1
  have hnames : ∀ name ∈ (dropParticipantCols m3).cols,
      strHasSub (strLower name) "participant id" = false :=
    dropParticipantCols_names _
  rcases hout with hout | hout
  · rw [hout]; exact ⟨hnm4, hnames⟩
  · rw [hout]
    exact ⟨maskRows_noMissing _ _ hnm4, hnames⟩

/-- An all-numeric table with no missing cells and a benign mask, on which
preprocessing succeeds. -/
def cleanTable : Table :=
  { cols := ["Gait Speed", "Cadence"],
    rows := [[.num 1, .num 2], [.num 3, .num 4], [.num 5, .num 6]] }

/-- A mask that keeps every row. -/
def keepAllMask : NTable → List Bool := fun m => List.replicate m.rows.length true

/-- Claim C7, witness:: the invariant at a concrete successful run. -/
theorem c7_preprocessor_invariant_witness :
    noMissing ((okValue? (create_numeric_df cleanTable keepAllMask)).getD
      { cols := [], rows := [] }) ∧
    (∀ name ∈ ((okValue? (create_numeric_df cleanTable keepAllMask)).getD
        { cols := [], rows := [] }).cols,
      strHasSub (strLower name) "participant id" = false) :=
  c7_preprocessor_invariant cleanTable keepAllMask _ rfl

/-- A numeric table whose first column is literally named "id". -/
def idColTable : Table :=
  { cols := ["id", "Speed"],
    rows := [[.num 1, .num 2], [.num 3, .num 4], [.num 5, .num 6]] }

/-- Claim C8, counterexample.  A column named `"id"` matches the spec's
identifier heuristic (name ends/starts with "id"), yet survives
preprocessing: the code's only name-based drop is the "participant id"
containment test.  (The end/start-with-"id" heuristic exists solely in the
grouped-statistics column selection of `normaliser.py`.) -/
theorem c8_counterexample :
    (okValue? (create_numeric_df idColTable keepAllMask)).map NTable.cols =
      some ["id", "Speed"] ∧
    specIdHeuristic "id" = true := ⟨rfl, by decide⟩

/-- Claim C8, amended.  The preprocessor's name-based exclusion is exactly the
case-insensitive "participant id" containment test: every surviving column
fails it, and conversely any column with at least one numeric value whose
name does not contain "participant id" is retained — even when its name
starts or ends with "id". -/
theorem c8_amended (t : Table) (predict : NTable → List Bool) (out : NTable)
    (j : Nat) (h : create_numeric_df t predict = .ok out) :
    (∀ name ∈ out.cols, strHasSub (strLower name) "participant id" = false) ∧
    (j < t.cols.length →
     (coerceTable t).rows.any (fun r => (r.getD j none).isSome) = true →
     strHasSub (strLower (t.cols.getD j "")) "participant id" = false →
     t.cols.getD j "" ∈ out.cols) := by
  obtain ⟨_, hout⟩ := create_numeric_df_ok_cases t predict out h
  have hnames : ∀ name ∈ (dropParticipantCols
      (fillMean (dropAllNaRows (dropAllNaCols (coerceTable t))))).cols,
      strHasSub (strLower name) "participant id" = false :=
    dropParticipantCols_names _
  have houtcols : out.cols = (dropParticipantCols
      (fillMean (dropAllNaRows (dropAllNaCols (coerceTable t))))).cols := by
    rcases hout with hout | hout
    · rw [hout]
    · rw [hout]; rfl
  constructor
  · rw [houtcols]; exact hnames
  · intro hj hnum hname
    rw [houtcols]
    refine dropParticipantCols_retains _ _ ?_ hname
    -- the column survives `dropna(axis=1, how="all")` because it has a value
    show t.cols.getD j "" ∈ (dropAllNaCols (coerceTable t)).cols
    refine List.mem_map.mpr ⟨j, ?_, rfl⟩
    exact List.mem_filter.mpr ⟨List.mem_range.mpr hj, hnum⟩

/-- Claim C8, witness:: the amended theorem at `idColTable`, column 0
(named "id"). -/
theorem c8_amended_witness :
    (∀ name ∈ ((okValue? (create_numeric_df idColTable keepAllMask)).getD
        { cols := [], rows := [] }).cols,
      strHasSub (strLower name) "participant id" = false) ∧
    (0 < idColTable.cols.length →
     (coerceTable idColTable).rows.any (fun r => (r.getD 0 none).isSome) = true →
     strHasSub (strLower (idColTable.cols.getD 0 "")) "participant id" = false →
     idColTable.cols.getD 0 "" ∈ ((okValue? (create_numeric_df idColTable keepAllMask)).getD
        { cols := [], rows := [] }).cols) :=
  c8_amended idColTable keepAllMask _ 0 rfl

/-! ## C10 — single-observation groups -/

lemma mem_insertKey (a x : String × String) (l : List (String × String)) :
    a ∈ insertKey x l ↔ a = x ∨ a ∈ l := by
  induction l with
  | nil => simp [insertKey]
  | cons y ys ih =>
    rw [insertKey]
    split
    · simp
    · rw [List.mem_cons, ih, List.mem_cons]
      tauto

lemma mem_sortKeys (a : String × String) (l : List (String × String)) :
    a ∈ sortKeys l ↔ a ∈ l := by
  induction l with
  | nil => simp [sortKeys]
  | cons x xs ih =>
    rw [sortKeys, mem_insertKey, ih]
    simp

lemma mem_groupKeys_of_row (t : Table) (ti ci : Nat) (k : String × String)
    (r : List Cell) (hr : r ∈ t.rows) (hk : rowKey ti ci r = some k) :
    k ∈ groupKeys t ti ci := by
  rw [groupKeys, mem_sortKeys, List.mem_dedup]
  exact List.mem_filterMap.mpr ⟨r, hr, hk⟩

/-- Claim C10.  A `(variable, timepoint, condition)` group with exactly one
valid numeric value is still emitted by `normalise_data`, and its `stdev`
is `NaN` (`Series.std` with `ddof=1` on a single observation); a group with
zero valid values produces no entry at all. -/
theorem c10_single_value_group (t : Table) (out : List VarEntry) (t' : Table)
    (ti ci j : Nat) (k : String × String)
    (hnodup : t.cols.Nodup)
    (hti : findCol t.cols "timepoint" = some ti)
    (hci : findCol t.cols "condition" = some ci)
    (hj : j ∈ numericColIdxs t.cols (t.cols.getD ti "") (t.cols.getD ci ""))
    (h : normalise_data t = .ok (out, t')) :
    ((groupVals t' ti ci k j).length = 1 →
      ∃ e ∈ out, e.name = t.cols.getD j "" ∧ e.timepoint = k.1 ∧
        e.condition = k.2 ∧ e.stdev? = none) ∧
    ((groupVals t' ti ci k j).length = 0 →
      ∀ e ∈ out, ¬ (e.name = t.cols.getD j "" ∧ e.timepoint = k.1 ∧
        e.condition = k.2)) := by
  rw [normalise_data, hti, hci] at h
  have hpair := Except.ok.inj h
  have hout : out = (groupKeys (mapCol (mapCol t ci standardize_condition) ti
      standardize_timepoint) ti ci).flatMap
      (fun k' => (numericColIdxs t.cols (t.cols.getD ti "") (t.cols.getD ci "")).flatMap
        (fun j' => groupEntry (mapCol (mapCol t ci standardize_condition) ti
          standardize_timepoint) ti ci k' j')) := by
    have := congrArg Prod.fst hpair
    exact this.symm
  have ht' : t' = mapCol (mapCol t ci standardize_condition) ti standardize_timepoint := by
    have := congrArg Prod.snd hpair
    exact this.symm
  subst ht'
  set t2 := mapCol (mapCol t ci standardize_condition) ti standardize_timepoint with ht2
  constructor
  · intro h1
    -- The group is non-empty, so its key is among the groupby keys, and the
    -- per-group, per-column emitter fires with a single-value statistic.
    have hrow : ∃ r ∈ t2.rows, rowKey ti ci r = some k := by
      have hne : groupVals t2 ti ci k j ≠ [] := by
        intro hnil; rw [hnil] at h1; simp at h1
      obtain ⟨x, hx⟩ := List.exists_mem_of_ne_nil _ hne
      obtain ⟨r, hr, hfr⟩ := List.mem_filterMap.mp hx
      refine ⟨r, hr, ?_⟩
      by_contra hkr
      rw [if_neg hkr] at hfr
      exact Option.noConfusion hfr
    obtain ⟨r, hr, hkr⟩ := hrow
    have hk : k ∈ groupKeys t2 ti ci := mem_groupKeys_of_row _ _ _ _ _ hr hkr
    refine ⟨{ name := t2.cols.getD j "", mean := listMean (groupVals t2 ti ci k j),
              stdev? := sampleVar? (groupVals t2 ti ci k j),
              timepoint := k.1, condition := k.2 }, ?_, rfl, rfl, rfl, ?_⟩
    · rw [hout]
      refine List.mem_flatMap.mpr ⟨k, hk, ?_⟩
      refine List.mem_flatMap.mpr ⟨j, hj, ?_⟩
      rw [groupEntry]
      rw [if_pos (by rw [h1]; exact Nat.zero_lt_one)]
      exact List.mem_singleton.mpr rfl
    · rw [sampleVar?, if_neg (by rw [h1]; omega)]
  · intro h0 e he hbad
    obtain ⟨hname, htp, hcond⟩ := hbad
    rw [hout] at he
    obtain ⟨k', hk', he⟩ := List.mem_flatMap.mp he
    obtain ⟨j', hj', he⟩ := List.mem_flatMap.mp he
    rw [groupEntry] at he
    by_cases hlen : 0 < (groupVals t2 ti ci k' j').length
    · rw [if_pos hlen] at he
      have he' := List.mem_singleton.mp he
      have hkk : k' = k := by
        have h1 : k'.1 = k.1 := by rw [← htp, he']
        have h2 : k'.2 = k.2 := by rw [← hcond, he']
        exact Prod.ext h1 h2
      have hjj : j' = j := by
        have hjlt : j < t.cols.length := by
          have := (List.mem_filter.mp hj).1
          exact List.mem_range.mp this
        have hjlt' : j' < t.cols.length := by
          have := (List.mem_filter.mp hj').1
          exact List.mem_range.mp this
        have hnames : t.cols.getD j' "" = t.cols.getD j "" := by
          rw [← hname, he']
          rfl
        rw [List.getD_eq_getElem _ _ hjlt', List.getD_eq_getElem _ _ hjlt] at hnames
        exact List.Nodup.getElem_inj_iff hnodup |>.mp hnames
      rw [hkk, hjj] at hlen
      rw [h0] at hlen
      exact absurd hlen (by omega)
    · rw [if_neg hlen] at he
      exact absurd he (List.not_mem_nil e)

/-- A table whose `(PI-1, ST)` group has exactly one valid numeric Speed
value, and whose `(PI-2, ST)` group has none (a non-numeric cell). -/
def singleValueTable : Table :=
  { cols := ["Timepoint", "Walk Task Condition", "Speed"],
    rows := [[.str "PI-1", .str "ST", .num 5],
             [.str "PI-2", .str "ST", .str "n/a"]] }

/-- The output `normalise_data` produces on `singleValueTable`. -/
def singleValueOut : List VarEntry :=
  ((okValue? (normalise_data singleValueTable)).getD ([], singleValueTable)).1

/-- The post-call table of `normalise_data singleValueTable`. -/
def singleValueTable' : Table :=
  ((okValue? (normalise_data singleValueTable)).getD ([], singleValueTable)).2

/-- Claim C10, witness:: the theorem at `singleValueTable`, variable `Speed`
(column 2), group `(PI-1, ST)`. -/
theorem c10_single_value_group_witness :
    ((groupVals singleValueTable' 0 1 ("PI-1", "ST") 2).length = 1 →
      ∃ e ∈ singleValueOut, e.name = singleValueTable.cols.getD 2 "" ∧
        e.timepoint = ("PI-1", "ST").1 ∧ e.condition = ("PI-1", "ST").2 ∧
        e.stdev? = none) ∧
    ((groupVals singleValueTable' 0 1 ("PI-1", "ST") 2).length = 0 →
      ∀ e ∈ singleValueOut, ¬ (e.name = singleValueTable.cols.getD 2 "" ∧
        e.timepoint = ("PI-1", "ST").1 ∧ e.condition = ("PI-1", "ST").2)) :=
  c10_single_value_group singleValueTable singleValueOut singleValueTable'
    0 1 2 ("PI-1", "ST") (by decide) rfl rfl (by decide) rfl

end GaitVision
